import Mathlib

/-!
Verification development for the multi-feed iCalendar aggregation engine
(`services/ical.py`: `CalendarFeed`, `MultiCalendarService`).

Modelling conventions, used consistently below:
* Instants are whole minutes since 1970-01-01T00:00 UTC, as `Int`.  The Python
  code manipulates `datetime` values that this system only ever produces at
  whole-minute granularity; serialized timestamps (`datetime.isoformat()` of a
  UTC datetime) are modelled by `isoOfMinutes`, date-only values
  (`date.isoformat()`) by `dateIso`.
* `dateutil.parser.parse` is an external collaborator; it is modelled by
  `parseIsoString`, which accepts exactly the timestamp shapes this system
  serializes (date-only `YYYY-MM-DD`, and `YYYY-MM-DDTHH:MM` optionally
  followed by `:SS` and the UTC offset `+00:00`) and rejects everything else.
* Timezone conversion collapses: a naive timestamp is assumed UTC and an aware
  one is converted to UTC, so the model stores the resulting UTC value
  directly (see `IcalTime`).
* Python dictionaries returned to callers are modelled as structures; a key
  that a code path leaves out is an `Option` field set to `none`.
-/

namespace CalendarMcp

/-! ### Civil-calendar arithmetic and ISO serialization -/

/-- Days-from-civil conversion (proleptic Gregorian): day count of `y-m-d`
relative to 1970-01-01. -/
def daysFromCivil (y mo d : Nat) : Int :=
  let ys := if mo ≤ 2 then y - 1 else y
  let era := ys / 400
  let yoe := ys % 400
  let mp := (mo + 9) % 12
  let doy := (153 * mp + 2) / 5 + (d - 1)
  let doe := yoe * 365 + yoe / 4 - yoe / 100 + doy
  (era : Int) * 146097 + (doe : Int) - 719468

/-- Civil date `(year, month, day)` of a day count relative to 1970-01-01. -/
def civilFromDays (days : Int) : Nat × Nat × Nat :=
  let z := (days + 719468).toNat
  let era := z / 146097
  let doe := z % 146097
  let yoe := (doe - doe / 1460 + doe / 36524 - doe / 146096) / 365
  let y := yoe + era * 400
  let doy := doe - (365 * yoe + yoe / 4 - yoe / 100)
  let mp := (5 * doy + 2) / 153
  let dd := doy - (153 * mp + 2) / 5 + 1
  let mo := if mp < 10 then mp + 3 else mp - 9
  (if mo ≤ 2 then y + 1 else y, mo, dd)

def pad2 (n : Nat) : String := if n < 10 then "0" ++ toString n else toString n

def pad4 (n : Nat) : String :=
  if n < 10 then "000" ++ toString n
  else if n < 100 then "00" ++ toString n
  else if n < 1000 then "0" ++ toString n
  else toString n

/-- `date.isoformat()` of the day count `days`. -/
def dateIso (days : Int) : String :=
  match civilFromDays days with
  | (y, mo, dd) => pad4 y ++ "-" ++ pad2 mo ++ "-" ++ pad2 dd

/-- `datetime.isoformat()` of a whole-minute UTC instant, e.g.
`2024-01-01T10:30:00+00:00`. -/
def isoOfMinutes (t : Int) : String :=
  let rem := (t.fmod 1440).toNat
  dateIso (t.fdiv 1440) ++ "T" ++ pad2 (rem / 60) ++ ":" ++ pad2 (rem % 60) ++ ":00+00:00"

def digitVal (c : Char) : Option Nat :=
  if c.isDigit then some (c.toNat - 48) else none

def num2 (a b : Char) : Option Nat := do
  let x ← digitVal a
  let y ← digitVal b
  pure (10 * x + y)

/-- Accepts the optional seconds-and-offset tail of a serialized timestamp:
empty, `:SS`, or `:SS+00:00`. -/
def secondsTailOk (cs : List Char) : Bool :=
  match cs with
  | [] => true
  | ':' :: s1 :: s2 :: rest =>
    s1.isDigit && s2.isDigit && (rest == [] || rest == ['+', '0', '0', ':', '0', '0'])
  | _ => false

/-- Model of `dateutil.parser.parse` (external collaborator) on the timestamp
strings this system serializes, composed with UTC normalization: yields the
whole-minute UTC instant, or `none` when the string does not parse. -/
def parseIsoString (s : String) : Option Int :=
  match s.toList with
  | a :: b :: c :: d :: '-' :: e :: f :: '-' :: g :: h :: rest =>
    match num2 a b, num2 c d, num2 e f, num2 g h with
    | some y12, some y34, some mo, some dd =>
      if 1 ≤ mo ∧ mo ≤ 12 ∧ 1 ≤ dd ∧ dd ≤ 31 then
        let base := daysFromCivil (100 * y12 + y34) mo dd * 1440
        match rest with
        | [] => some base
        | 'T' :: p :: q :: ':' :: r :: t :: rest2 =>
          match num2 p q, num2 r t with
          | some hh, some mi =>
            if hh ≤ 23 ∧ mi ≤ 59 ∧ secondsTailOk rest2 then some (base + hh * 60 + mi)
            else none
          | _, _ => none
        | _ => none
      else none
    | _, _, _, _ => none
  | _ => none

/-! ### String primitives.  The corresponding core-library functions are
implemented over byte iterators and do not reduce in the kernel, so the
Python string operations are modelled directly over character lists. -/

/-- Python `str.lower()` (ASCII case folding; the strings this system folds
are ASCII). -/
def lowerStr (s : String) : String := String.mk (s.toList.map Char.toLower)

/-- Python `str.startswith`. -/
def startsWithStr (s p : String) : Bool := p.toList.isPrefixOf s.toList

/-- Python `str.endswith`. -/
def endsWithStr (s p : String) : Bool := p.toList.isSuffixOf s.toList

/-- Replacement of every non-overlapping occurrence of `p`, left to right (an
empty pattern leaves the list unchanged; no caller passes one).  The fuel —
always at least the list length at the outer call — makes the recursion
structural so the kernel can evaluate it. -/
def replaceCharsFuel (p r : List Char) : Nat → List Char → List Char
  | 0, s => s
  | _ + 1, [] => []
  | fuel + 1, c :: t =>
    if p ≠ [] ∧ p.isPrefixOf (c :: t) then
      r ++ replaceCharsFuel p r fuel (t.drop (p.length - 1))
    else c :: replaceCharsFuel p r fuel t

/-- Python `str.replace(pat, rep)`. -/
def replaceStr (s pat rep : String) : String :=
  String.mk (replaceCharsFuel pat.toList rep.toList s.toList.length s.toList)

/-- Split on every non-overlapping occurrence of a nonempty separator,
again with a structural fuel. -/
def splitOnCharsFuel (sep : List Char) : Nat → List Char → List (List Char)
  | 0, _ => [[]]
  | _ + 1, [] => [[]]
  | fuel + 1, c :: t =>
    if sep ≠ [] ∧ sep.isPrefixOf (c :: t) then
      [] :: splitOnCharsFuel sep fuel (t.drop (sep.length - 1))
    else
      match splitOnCharsFuel sep fuel t with
      | [] => [[c]]
      | h :: r => (c :: h) :: r

/-- Python `str.split(sep)` on a nonempty separator. -/
def splitOnStr (s sep : String) : List String :=
  (splitOnCharsFuel sep.toList s.toList.length s.toList).map String.mk

/-- Python `sep.join(parts)`. -/
def joinSep (sep : String) : List String → String
  | [] => ""
  | [x] => x
  | x :: y :: xs => x ++ sep ++ joinSep sep (y :: xs)

/-- Code-point lexicographic order on character lists (Python string `<=`). -/
def charListLe : List Char → List Char → Bool
  | [], _ => true
  | _ :: _, [] => false
  | a :: as, b :: bs =>
    if a.toNat < b.toNat then true
    else if b.toNat < a.toNat then false
    else charListLe as bs

/-- Python string `<=`. -/
def strLe (a b : String) : Bool := charListLe a.toList b.toList

/-! ### MD5 (`hashlib.md5(...).hexdigest()`), used for feed identifiers -/

def rotl32 (x n : Nat) : Nat := ((x <<< n) ||| (x >>> (32 - n))) % 4294967296

/-- 32-bit complement, on values kept below `2 ^ 32`. -/
def md5Not (x : Nat) : Nat := 4294967295 - x

def md5K : List Nat :=
  [0xd76aa478, 0xe8c7b756, 0x242070db, 0xc1bdceee,
   0xf57c0faf, 0x4787c62a, 0xa8304613, 0xfd469501,
   0x698098d8, 0x8b44f7af, 0xffff5bb1, 0x895cd7be,
   0x6b901122, 0xfd987193, 0xa679438e, 0x49b40821,
   0xf61e2562, 0xc040b340, 0x265e5a51, 0xe9b6c7aa,
   0xd62f105d, 0x02441453, 0xd8a1e681, 0xe7d3fbc8,
   0x21e1cde6, 0xc33707d6, 0xf4d50d87, 0x455a14ed,
   0xa9e3e905, 0xfcefa3f8, 0x676f02d9, 0x8d2a4c8a,
   0xfffa3942, 0x8771f681, 0x6d9d6122, 0xfde5380c,
   0xa4beea44, 0x4bdecfa9, 0xf6bb4b60, 0xbebfbc70,
   0x289b7ec6, 0xeaa127fa, 0xd4ef3085, 0x04881d05,
   0xd9d4d039, 0xe6db99e5, 0x1fa27cf8, 0xc4ac5665,
   0xf4292244, 0x432aff97, 0xab9423a7, 0xfc93a039,
   0x655b59c3, 0x8f0ccc92, 0xffeff47d, 0x85845dd1,
   0x6fa87e4f, 0xfe2ce6e0, 0xa3014314, 0x4e0811a1,
   0xf7537e82, 0xbd3af235, 0x2ad7d2bb, 0xeb86d391]

def md5S : List Nat :=
  [7, 12, 17, 22, 7, 12, 17, 22, 7, 12, 17, 22, 7, 12, 17, 22,
   5, 9, 14, 20, 5, 9, 14, 20, 5, 9, 14, 20, 5, 9, 14, 20,
   4, 11, 16, 23, 4, 11, 16, 23, 4, 11, 16, 23, 4, 11, 16, 23,
   6, 10, 15, 21, 6, 10, 15, 21, 6, 10, 15, 21, 6, 10, 15, 21]

/-- Little-endian word `g` of a 64-byte block. -/
def md5Word (block : List Nat) (g : Nat) : Nat :=
  block.getD (4 * g) 0 + 256 * block.getD (4 * g + 1) 0 +
    65536 * block.getD (4 * g + 2) 0 + 16777216 * block.getD (4 * g + 3) 0

def md5Round (block : List Nat) (st : Nat × Nat × Nat × Nat) (i : Nat) :
    Nat × Nat × Nat × Nat :=
  match st with
  | (a, b, c, d) =>
    let fg : Nat × Nat :=
      if i < 16 then ((b &&& c) ||| (md5Not b &&& d), i)
      else if i < 32 then ((d &&& b) ||| (md5Not d &&& c), (5 * i + 1) % 16)
      else if i < 48 then (b ^^^ c ^^^ d, (3 * i + 5) % 16)
      else (c ^^^ (b ||| md5Not d), (7 * i) % 16)
    let fv := (fg.1 + a + md5K.getD i 0 + md5Word block fg.2) % 4294967296
    (d, (b + rotl32 fv (md5S.getD i 0)) % 4294967296, b, c)

def md5Block (st : Nat × Nat × Nat × Nat) (block : List Nat) : Nat × Nat × Nat × Nat :=
  match st with
  | (a0, b0, c0, d0) =>
    match (List.range 64).foldl (md5Round block) (a0, b0, c0, d0) with
    | (a, b, c, d) =>
      ((a0 + a) % 4294967296, (b0 + b) % 4294967296,
       (c0 + c) % 4294967296, (d0 + d) % 4294967296)

def toLEBytes (n x : Nat) : List Nat :=
  (List.range n).map (fun i => (x >>> (8 * i)) % 256)

def md5ChunksFuel : Nat → List Nat → List (List Nat)
  | 0, _ => []
  | _ + 1, [] => []
  | fuel + 1, x :: xs => (x :: xs).take 64 :: md5ChunksFuel fuel ((x :: xs).drop 64)

/-- The 64-byte blocks of a padded message (fuel keeps the recursion
structural; every step consumes at least one byte). -/
def md5Chunks (l : List Nat) : List (List Nat) := md5ChunksFuel l.length l

/-- MD5 digest (16 bytes) of a byte sequence. -/
def md5Bytes (msg : List Nat) : List Nat :=
  let ml := 8 * msg.length
  let padZeros := (119 - msg.length % 64) % 64
  let padded := msg ++ 128 :: (List.replicate padZeros 0 ++ toLEBytes 8 (ml % 18446744073709551616))
  let r := (md5Chunks padded).foldl md5Block (1732584193, 4023233417, 2562383102, 271733878)
  toLEBytes 4 r.1 ++ toLEBytes 4 r.2.1 ++ toLEBytes 4 r.2.2.1 ++ toLEBytes 4 r.2.2.2

def utf8Bytes (c : Char) : List Nat :=
  let n := c.toNat
  if n < 128 then [n]
  else if n < 2048 then [192 + n / 64, 128 + n % 64]
  else if n < 65536 then [224 + n / 4096, 128 + (n / 64) % 64, 128 + n % 64]
  else [240 + n / 262144, 128 + (n / 4096) % 64, 128 + (n / 64) % 64, 128 + n % 64]

def strUtf8 (s : String) : List Nat := s.toList.flatMap utf8Bytes

def hexDigitChar (n : Nat) : Char := "0123456789abcdef".toList.getD (n % 16) '0'

def bytesToHexChars (bs : List Nat) : List Char :=
  bs.flatMap (fun b => [hexDigitChar (b / 16), hexDigitChar b])

/-- `hashlib.md5(url.encode()).hexdigest()` as a character list. -/
def md5HexChars (s : String) : List Char := bytesToHexChars (md5Bytes (strUtf8 s))

/-- Feed identifier: `hashlib.md5(url.encode()).hexdigest()[:8]`
(`CalendarFeed.__init__`). -/
def feedIdOf (url : String) : String := String.mk ((md5HexChars url).take 8)

/-! ### Data model (`CalendarFeed`, parsed calendars, raw components) -/

/-- A raw `DTSTART`/`DTEND` value (`vDDDTypes.dt`): either a datetime or a
date-only value.  A datetime is stored as the UTC instant it normalizes to
(naive values are assumed UTC, aware ones are converted to UTC, so both
collapse to the same stored value). -/
inductive IcalTime where
  | timed (minutes : Int)
  | dateOnly (days : Int)
deriving DecidableEq, Repr

/-- The `safe_str` serialization of a raw time value (`_event_to_dict`):
datetimes are normalized to UTC and rendered with `isoformat()`, date values
with `date.isoformat()`. -/
def renderIcalTime : IcalTime → String
  | .timed m => isoOfMinutes m
  | .dateOnly d => dateIso d

/-- The datetime/date branches of `_normalize_datetime`: a datetime maps to
its UTC instant, a date to midnight UTC of that day.  Total, as in the code. -/
def normalizeIcalTime : IcalTime → Int
  | .timed m => m
  | .dateOnly d => d * 1440

/-- The string branch of `_normalize_datetime`, lifted to the optional values
stored under the `start`/`end` keys of an event dictionary: `None` stays
`None`, a string is parsed (unparsable strings yield `None`, no exception). -/
def normalizeDatetimeOpt : Option String → Option Int
  | none => none
  | some s => parseIsoString s

/-- A calendar component as seen by `calendar.walk()`.  `occurrences` is not a
field of the Python object: it models, per component, the concrete
`(DTSTART, DTEND)` occurrence list that the external `recurring_ical_events`
collaborator computes for it (a non-recurring component has its own single
`(dtstart, dtend)` pair there). -/
structure VComponent where
  compName : String
  uid : Option String := none
  summary : Option String := none
  description : Option String := none
  location : Option String := none
  status : Option String := none
  organizer : Option String := none
  dtstart : Option IcalTime := none
  dtend : Option IcalTime := none
  /-- `DURATION` as a whole number of minutes (`timedelta` model). -/
  duration : Option Int := none
  rrule : Option String := none
  attendees : List String := []
  categories : List String := []
  occurrences : List (IcalTime × Option IcalTime) := []
deriving DecidableEq, Repr

/-- A parsed iCalendar document.  `expandOk` models whether the external
recurrence-expansion collaborator succeeds on this document (its failure
triggers the fallback path of `get_events`). -/
structure VCalendar where
  calName : Option String := none
  components : List VComponent := []
  expandOk : Bool := true
deriving DecidableEq, Repr

/-- `urlparse`-based default feed name (`CalendarFeed._generate_name_from_url`).
Models the stdlib `urlparse` on `scheme://netloc/path` URLs. -/
def generateNameFromUrl (url : String) : String :=
  let netlocPath : String × String :=
    match splitOnStr url "://" with
    | [_] => ("", url)
    | _ :: rest =>
      let tail := joinSep "://" rest
      match splitOnStr tail "/" with
      | [] => ("", "")
      | h :: t => (h, if t.isEmpty then "" else "/" ++ joinSep "/" t)
    | [] => ("", url)
  let domain := ((splitOnStr (replaceStr netlocPath.1 "www." "") ".").headD "")
  let path :=
    if netlocPath.2 ≠ "" then
      let stripped :=
        String.mk (((netlocPath.2.toList.dropWhile (· == '/')).reverse.dropWhile
          (· == '/')).reverse)
      (splitOnStr stripped "/").getLastD ""
    else ""
  if path ≠ "" ∧ ¬ endsWithStr path ".ics" then domain ++ "-" ++ path
  else if domain ≠ "" then domain else "calendar"

/-- A registered feed (`CalendarFeed`).  `lastFetch` is a whole-minute UTC
instant. -/
structure Feed where
  url : String
  name : String
  id : String
  calendar : Option VCalendar := none
  lastFetch : Option Int := none
  error : Option String := none
deriving DecidableEq, Repr

/-- `CalendarFeed.__init__`: the name falls back to the URL-derived one when
absent or empty (Python `name or self._generate_name_from_url(url)`), and the
id is the first 8 hex characters of the MD5 of the URL. -/
def mkFeed (url : String) (name : Option String) : Feed :=
  { url := url
    name := match name with
      | some n => if n = "" then generateNameFromUrl url else n
      | none => generateNameFromUrl url
    id := feedIdOf url }

/-- The feed registry: `MultiCalendarService.feeds`, an insertion-ordered
dictionary keyed by feed id, modelled as a list. -/
structure ServiceState where
  feeds : List Feed
deriving DecidableEq, Repr

/-- `_find_feed`: dictionary-key (id) lookup first, then the first feed whose
URL or name equals the identifier. -/
def findFeed (st : ServiceState) (identifier : String) : Option Feed :=
  match st.feeds.find? (fun f => f.id == identifier) with
  | some f => some f
  | none => st.feeds.find? (fun f => f.url == identifier || f.name == identifier)

/-! ### Fetcher (`_refresh_single_calendar`, `add_feed`) -/

/-- Outcome of the external HTTP GET + iCalendar parse inside
`_refresh_single_calendar`'s `try`: success with a parsed document, a
timeout, an HTTP error with status code (the carried string is Python's
`str(e)`), or any other exception (`str(e)`). -/
inductive FetchOutcome where
  | success (cal : VCalendar)
  | timeout
  | httpError (statusCode : Nat) (excText : String)
  | failure (excText : String)
deriving DecidableEq, Repr

/-- The result dictionary of `_refresh_single_calendar` / `add_feed`;
fields absent from a given Python dict are `none`. -/
structure RefreshResult where
  status : String
  feedUrl : String
  feedName : String
  feedId : String
  lastFetch : Option String := none
  eventCount : Option Nat := none
  calendarName : Option String := none
  error : Option String := none
deriving DecidableEq, Repr

def timeoutErrorMsg (feedName : String) : String :=
  "Calendar feed \x27" ++ feedName ++ "\x27 timed out after 30 seconds.\n" ++
  "Possible issues:\n" ++
  "  • The calendar server is slow or unresponsive\n" ++
  "  • Network connectivity issues\n" ++
  "  • The URL might be incorrect\n" ++
  "To fix:\n" ++
  "  • Try refreshing again with `refresh_calendars`\n" ++
  "  • Verify the calendar URL is accessible\n" ++
  "  • Check if the calendar provider is online"

def httpErrorMsg (feedName : String) (statusCode : Nat) (excText : String) : String :=
  if statusCode = 401 then
    "Authentication failed for calendar \x27" ++ feedName ++ "\x27.\n" ++
    "The calendar requires authentication.\n" ++
    "To fix:\n" ++
    "  • Check if the calendar URL includes authentication tokens\n" ++
    "  • Regenerate the calendar\x27s secret URL\n" ++
    "  • Make sure the calendar is set to public or has proper access"
  else if statusCode = 404 then
    "Calendar feed \x27" ++ feedName ++ "\x27 not found (404).\n" ++
    "The calendar URL is invalid or has been removed.\n" ++
    "To fix:\n" ++
    "  • Verify the calendar URL is correct\n" ++
    "  • Get a new sharing URL from your calendar provider\n" ++
    "  • Use `remove_calendar_feed` to remove this feed\n" ++
    "  • Use `add_calendar_feed` with the correct URL"
  else
    "HTTP error " ++ toString statusCode ++ " for calendar \x27" ++ feedName ++
    "\x27: " ++ excText

def fetchFailureMsg (feedName : String) (excText : String) : String :=
  "Failed to fetch calendar \x27" ++ feedName ++ "\x27: " ++ excText ++ "\n" ++
  "To diagnose:\n" ++
  "  • Use `list_calendar_feeds` to check feed status\n" ++
  "  • Try removing and re-adding the feed\n" ++
  "  • Verify the calendar URL format is correct"

/-- `_refresh_single_calendar`: the network interaction is abstracted into
`outcome`; `now` is `datetime.now(UTC)`.  Returns the updated feed record
(Python mutates `feed` in place) and the result dictionary.  Every branch
returns a dictionary; no exception escapes this boundary. -/
def refreshSingleCalendar (feed : Feed) (outcome : FetchOutcome) (now : Int) :
    Feed × RefreshResult :=
  match outcome with
  | .success cal =>
    let evCount := (cal.components.filter (fun c => c.compName == "VEVENT")).length
    ({ feed with calendar := some cal, lastFetch := some now, error := none },
     { status := "success", feedUrl := feed.url, feedName := feed.name, feedId := feed.id,
       lastFetch := some (isoOfMinutes now), eventCount := some evCount,
       calendarName := some (cal.calName.getD feed.name) })
  | .timeout =>
    ({ feed with error := some "Connection timeout" },
     { status := "error", feedUrl := feed.url, feedName := feed.name, feedId := feed.id,
       error := some (timeoutErrorMsg feed.name),
       lastFetch := feed.lastFetch.map isoOfMinutes })
  | .httpError statusCode excText =>
    ({ feed with error := some excText },
     { status := "error", feedUrl := feed.url, feedName := feed.name, feedId := feed.id,
       error := some (httpErrorMsg feed.name statusCode excText),
       lastFetch := feed.lastFetch.map isoOfMinutes })
  | .failure excText =>
    ({ feed with error := some excText },
     { status := "error", feedUrl := feed.url, feedName := feed.name, feedId := feed.id,
       error := some (fetchFailureMsg feed.name excText),
       lastFetch := feed.lastFetch.map isoOfMinutes })

def emptyUrlMsg : String :=
  "Calendar URL is required.\n" ++
  "Please provide a valid .ics calendar URL.\n" ++
  "To find calendar URLs:\n" ++
  "  • Google Calendar: Settings → Calendar → Secret address in iCal format\n" ++
  "  • Outlook: Settings → Shared calendars → Publish calendar → ICS link\n" ++
  "  • Apple Calendar: Right-click calendar → Share Settings → Public Calendar"

def badSchemeMsg (url : String) : String :=
  "Invalid URL format: \x27" ++ url ++ "\x27.\n" ++
  "Calendar URLs must start with http://, https://, or webcal://.\n" ++
  "Examples:\n" ++
  "  • https://calendar.google.com/calendar/ical/example.ics\n" ++
  "  • webcal://calendar.example.com/feed.ics\n" ++
  "  • https://outlook.live.com/owa/calendar/example.ics"

/-- `_validate_url`: raises `ValueError` (modelled as `Except.error`) on an
empty URL or an unaccepted scheme. -/
def validateUrl (url : String) : Except String Unit :=
  if url = "" then .error emptyUrlMsg
  else if ! (startsWithStr url "http://" || startsWithStr url "https://" ||
             startsWithStr url "webcal://") then .error (badSchemeMsg url)
  else .ok ()

/-- `self.feeds[feed.id] = feed`: insertion into the id-keyed dictionary
(replaces an existing entry with the same id, else appends). -/
def insertFeed (st : ServiceState) (feed : Feed) : ServiceState :=
  if st.feeds.any (fun f => f.id == feed.id) then
    { feeds := st.feeds.map (fun f => if f.id == feed.id then feed else f) }
  else
    { feeds := st.feeds ++ [feed] }

/-- The `already_exists` dictionary returned by `add_feed` for a URL that is
already registered (raw URL equality; `feed` is the existing record). -/
def alreadyExistsResult (url : String) (feed : Feed) : RefreshResult :=
  { status := "already_exists", feedUrl := url, feedName := feed.name, feedId := feed.id }

/-- `add_feed`: validate the URL, return `already_exists` untouched-state for a
registered URL, otherwise create the feed, register it and fetch it once. -/
def addFeed (st : ServiceState) (url : String) (name : Option String)
    (outcome : FetchOutcome) (now : Int) :
    Except String (ServiceState × RefreshResult) :=
  match validateUrl url with
  | .error e => .error e
  | .ok _ =>
    match st.feeds.find? (fun f => f.url == url) with
    | some f => .ok (st, alreadyExistsResult url f)
    | none =>
      let feed := mkFeed url name
      let st1 := insertFeed st feed
      let fr := refreshSingleCalendar feed outcome now
      (.ok ({ feeds := st1.feeds.map (fun f => if f.id == feed.id then fr.1 else f) }, fr.2))

/-! ### Event Normalizer (`_event_to_dict`) -/

/-- A normalized event dictionary.  `endTime` models the Python key `"end"`
(a Lean keyword); `sourceFeed` models `"source_feed"` (the feed URL). -/
structure EventDict where
  uid : Option String := none
  summary : Option String := none
  description : Option String := none
  location : Option String := none
  start : Option String := none
  endTime : Option String := none
  allDay : Bool := false
  status : Option String := none
  organizer : Option String := none
  attendees : List String := []
  categories : List String := []
  recurrence : Option String := none
  sourceFeed : String
  sourceFeedName : String
  sourceFeedId : String
deriving DecidableEq, Repr

/-- The `DTEND` derivation of `_event_to_dict`: keep an explicit end as-is;
else, with a `DURATION` present, add it to the (UTC-normalized) start — for a
date-only start Python's `date + timedelta` advances by the timedelta's whole
days only; else default to start plus one hour for a timed start and to the
start itself for a date-only start.  No start, no duration: stays absent. -/
def dtendFromDuration : Option IcalTime → Option IcalTime → Option Int → Option IcalTime
  | some (.timed m), none, some dur => some (.timed (m + dur))
  | some (.dateOnly d), none, some dur => some (.dateOnly (d + Int.fdiv dur 1440))
  | _, e, _ => e

def dtendDefault : Option IcalTime → Option IcalTime → Option IcalTime
  | some (.timed m), none => some (.timed (m + 60))
  | some (.dateOnly d), none => some (.dateOnly d)
  | _, e => e

def derivedDtend (dtstart dtend : Option IcalTime) (duration : Option Int) :
    Option IcalTime :=
  dtendDefault dtstart (dtendFromDuration dtstart dtend duration)

/-- `_event_to_dict`: serialize a component into the normalized event
dictionary carrying its source feed's URL, name and id.  `all_day` is true
iff the raw start value is date-only (structural check). -/
def eventToDict (ev : VComponent) (feed : Feed) : EventDict :=
  let dtendD := derivedDtend ev.dtstart ev.dtend ev.duration
  { uid := ev.uid, summary := ev.summary, description := ev.description,
    location := ev.location,
    start := ev.dtstart.map renderIcalTime,
    endTime := dtendD.map renderIcalTime,
    allDay := match ev.dtstart with
      | some (.dateOnly _) => true
      | _ => false,
    status := ev.status, organizer := ev.organizer,
    attendees := ev.attendees, categories := ev.categories,
    recurrence := ev.rrule,
    sourceFeed := feed.url, sourceFeedName := feed.name, sourceFeedId := feed.id }

/-! ### Query Engine (`get_events`, `get_upcoming_events`, wrappers, search) -/

/-- Python `in` on strings: `needle` occurs as a contiguous substring. -/
def containsSub (needle hay : String) : Bool :=
  hay.toList.tails.any (fun t => needle.toList.isPrefixOf t)

/-- Stable insertion into a sorted list: the new element goes after every
element at most as large, preserving the original order among ties. -/
def insertStable (le : α → α → Bool) (a : α) : List α → List α
  | [] => [a]
  | b :: t => if le b a then b :: insertStable le a t else a :: b :: t

/-- Python's `list.sort` (Timsort) is a stable ascending sort; any two stable
sorts under a total `le` agree, so it is modelled by stable insertion sort,
which the kernel can evaluate. -/
def stableSort (le : α → α → Bool) (l : List α) : List α :=
  l.foldl (fun acc a => insertStable le a acc) []

/-- `events.sort(key=lambda x: x.get('start') or '')`: stable sort by the
serialized start string, absent start sorting as the empty string. -/
def sortByStartKey (evs : List EventDict) : List EventDict :=
  stableSort (fun a b => strLe (a.start.getD "") (b.start.getD "")) evs

/-- Python truthiness of the optional `feed_identifiers` argument: `None` and
the empty list both act as "no filter". -/
def truthyList : Option (List String) → Option (List String)
  | some [] => none
  | x => x

/-- Feed-identifier validation of `get_events` (`_validate_feed_exists` in
iteration order): the first identifier that resolves to no feed. -/
def firstInvalidIdentifier (st : ServiceState) : Option (List String) → Option String
  | some l => l.find? (fun i => (findFeed st i).isNone)
  | none => none

/-- The `ValueError` message of `_validate_feed_exists`. -/
def feedNotFoundMsg (st : ServiceState) (identifier : String) : String :=
  let avail := joinSep ", "
    (st.feeds.map (fun f => f.name ++ " (ID: " ++ f.id ++ ")"))
  "Calendar feed \x27" ++ identifier ++ "\x27 not found.\n" ++
  "Available feeds: " ++ (if st.feeds.isEmpty then "None" else avail) ++ "\n" ++
  "To manage feeds:\n" ++
  "  • Use `list_calendar_feeds` to see all feeds\n" ++
  "  • Use `add_calendar_feed` to add a new feed\n" ++
  "  • Feed can be identified by name, ID, or URL"

/-- Modelled from the spec (§4.5 Recurrence Expander): the external
`recurring_ical_events.of(cal).between(s, e)` collaborator, which yields, for
every event component, its concrete occurrences that intersect the window
`[s, e]` (zero-length occurrences count when they start inside the window).
Each occurrence is the component with `DTSTART`/`DTEND` set to the
occurrence's own times. -/
def expandBetween (cal : VCalendar) (s e : Int) : List VComponent :=
  (cal.components.filter (fun c => c.compName == "VEVENT")).flatMap (fun c =>
    c.occurrences.filterMap (fun occ =>
      let os := normalizeIcalTime occ.1
      let oe := match occ.2 with
        | some t => normalizeIcalTime t
        | none => os
      if (os < e ∧ oe > s) ∨ (os = oe ∧ s ≤ os ∧ os < e) then
        some { c with dtstart := some occ.1, dtend := occ.2 }
      else none))

/-- The un-paginated body of `get_events`: validation, date-filter parsing,
feed selection, expansion (with the non-recurring fallback on expansion
failure), serialization and sorting.  `now` is `datetime.now(UTC)`.
A `ValueError`/`TypeError` raised by the Python code is `Except.error`. -/
def getEventsCore (st : ServiceState) (now : Int) (startDate endDate : Option String)
    (feedIdentifiers : Option (List String)) : Except String (List EventDict) :=
  let fids := truthyList feedIdentifiers
  match firstInvalidIdentifier st fids with
  | some ident => .error (feedNotFoundMsg st ident)
  | none =>
    let startDt : Option Int :=
      match startDate with
      | some s => parseIsoString s
      | none => some now
    let endDtE : Except String (Option Int) :=
      match endDate with
      | some s => .ok (parseIsoString s)
      | none =>
        match startDt with
        | some sd => .ok (some (sd + 7 * 1440))
        | none =>
          .error "unsupported operand type(s) for +: \x27NoneType\x27 and \x27datetime.timedelta\x27"
    match endDtE with
    | .error e => .error e
    | .ok endDt =>
      let feedsToQuery := match fids with
        | some l => l.filterMap (findFeed st)
        | none => st.feeds
      let events := feedsToQuery.flatMap (fun feed =>
        match feed.calendar with
        | none => []
        | some cal =>
          if cal.expandOk ∧ startDt.isSome ∧ endDt.isSome then
            (expandBetween cal (startDt.getD 0) (endDt.getD 0)).map
              (fun c => eventToDict c feed)
          else
            (cal.components.filter (fun c => c.compName == "VEVENT")).filterMap (fun c =>
              let keep : Bool :=
                match c.dtstart with
                | some t =>
                  let evDt := normalizeIcalTime t
                  ! ((startDt.isSome && decide (evDt < startDt.getD 0)) ||
                     (endDt.isSome && decide (evDt > endDt.getD 0)))
                | none => true
              if keep then some (eventToDict c feed) else none))
      .ok (sortByStartKey events)

/-- The pagination step of `get_events` (lines 508-517): with a limit, the
slice `events[offset:offset+limit]`; without one, `events[offset:]` when the
offset is positive, else the full list. -/
def paginate (events : List EventDict) (limit : Option Nat) (offset : Nat) :
    List EventDict :=
  match limit with
  | some l => (events.drop offset).take l
  | none => if offset > 0 then events.drop offset else events

/-- `get_events` (the cache-aside decorator is the out-of-scope external cache
collaborator and is the identity here). -/
def getEvents (st : ServiceState) (now : Int) (startDate endDate : Option String)
    (feedIdentifiers : Option (List String)) (limit : Option Nat) (offset : Nat) :
    Except String (List EventDict) :=
  (getEventsCore st now startDate endDate feedIdentifiers).map
    (fun evs => paginate evs limit offset)

/-- `get_upcoming_events`: walks the raw (un-expanded) components of the
selected feeds, keeps events whose parsed start is at or after `now`, sorts
by that start instant, and returns the first `count`. -/
def getUpcomingEvents (st : ServiceState) (now : Int) (count : Nat)
    (feedIdentifiers : Option (List String)) : List EventDict :=
  let fids := truthyList feedIdentifiers
  let feedsToQuery := match fids with
    | some l => l.filterMap (findFeed st)
    | none => st.feeds
  let futureEvents := feedsToQuery.flatMap (fun feed =>
    match feed.calendar with
    | none => []
    | some cal =>
      (cal.components.filter (fun c => c.compName == "VEVENT")).filterMap (fun c =>
        match c.dtstart with
        | some t =>
          let evDt := normalizeIcalTime t
          if evDt ≥ now then some (evDt, eventToDict c feed) else none
        | none => none))
  ((stableSort (fun a b => decide (a.1 ≤ b.1)) futureEvents).take count).map
    (fun p => p.2)

/-- Midnight UTC of the day containing `t`
(`datetime.replace(hour=0, minute=0, second=0, microsecond=0)`). -/
def midnightOf (t : Int) : Int := (t.fdiv 1440) * 1440

/-- `get_today_events`: `get_events` over `[today 00:00, tomorrow 00:00]`. -/
def getTodayEvents (st : ServiceState) (now : Int)
    (feedIdentifiers : Option (List String)) : Except String (List EventDict) :=
  getEvents st now (some (isoOfMinutes (midnightOf now)))
    (some (isoOfMinutes (midnightOf now + 1440))) feedIdentifiers none 0

/-- `get_tomorrow_events_resource`: `get_events` over tomorrow's day window
(the surrounding metadata dictionary carries the same event list). -/
def getTomorrowEvents (st : ServiceState) (now : Int) : Except String (List EventDict) :=
  getEvents st now (some (isoOfMinutes (midnightOf now + 1440)))
    (some (isoOfMinutes (midnightOf now + 2880))) none none 0

/-- Monday-midnight start of `now`'s week (`now - timedelta(days=now.weekday())`
floored to midnight; 1970-01-01 was a Thursday, Python weekday 3). -/
def startOfWeek (now : Int) : Int :=
  (now.fdiv 1440 - (now.fdiv 1440 + 3).fmod 7) * 1440

/-- `get_week_events_resource`: `get_events` over `[Monday 00:00, +7 days]`. -/
def getWeekEvents (st : ServiceState) (now : Int) : Except String (List EventDict) :=
  getEvents st now (some (isoOfMinutes (startOfWeek now)))
    (some (isoOfMinutes (startOfWeek now + 7 * 1440))) none none 0

/-- First-of-month midnight for `now`, and the first of the following month
(`get_month_events_resource`'s `replace(...)` arithmetic). -/
def monthWindow (now : Int) : Int × Int :=
  match civilFromDays (now.fdiv 1440) with
  | (y, mo, _) =>
    (daysFromCivil y mo 1 * 1440,
     (if mo = 12 then daysFromCivil (y + 1) 1 1 else daysFromCivil y (mo + 1) 1) * 1440)

/-- `get_month_events_resource`: `get_events` over the current month. -/
def getMonthEvents (st : ServiceState) (now : Int) : Except String (List EventDict) :=
  getEvents st now (some (isoOfMinutes (monthWindow now).1))
    (some (isoOfMinutes (monthWindow now).2)) none none 0

/-- The four case/punctuation variants the search tries. -/
def queryVariations (query : String) : List String :=
  let ql := lowerStr query
  [ql, replaceStr ql " " "_", replaceStr ql "_" " ", replaceStr ql "-" " "]

/-- The bidirectional feed-name match of the search's feed-collection pass:
a variant occurs in the feed name, or the feed name occurs in the variant. -/
def feedNameMatchesBidir (vars : List String) (f : Feed) : Bool :=
  vars.any (fun v =>
    containsSub v (lowerStr f.name) || containsSub (lowerStr f.name) v)

/-- The per-feed forward name match inside the search loop. -/
def feedNameMatchesFwd (vars : List String) (f : Feed) : Bool :=
  vars.any (fun v => containsSub v (lowerStr f.name))

/-- Per-event text match: a variant occurs in the lowercased summary,
description or location (`str(component.get(key, ''))`, absent fields read as
the empty string). -/
def textMatches (vars : List String) (c : VComponent) : Bool :=
  vars.any (fun v =>
    containsSub v (lowerStr (c.summary.getD "")) ||
    containsSub v (lowerStr (c.description.getD "")) ||
    containsSub v (lowerStr (c.location.getD "")))

/-- The per-feed body of the search loop: skip feeds with no cached calendar,
and keep a walked `VEVENT` on a text match or a forward feed-name match. -/
def searchFeedEvents (vars : List String) (feed : Feed) : List EventDict :=
  match feed.calendar with
  | none => []
  | some cal =>
    let nameMatch := feedNameMatchesFwd vars feed
    (cal.components.filter (fun c => c.compName == "VEVENT")).filterMap (fun c =>
      if textMatches vars c || nameMatch then some (eventToDict c feed) else none)

/-- `search_events`: empty query short-circuits to `[]`; with no explicit feed
filter, feeds whose name matches a variant (bidirectionally) become the feed
filter; events of the queried feeds are kept on a text match or a forward
feed-name match; results are sorted by serialized start. -/
def searchEvents (st : ServiceState) (query : String)
    (feedIdentifiers : Option (List String)) : List EventDict :=
  if query = "" then []
  else
    let vars := queryVariations query
    let fids0 := truthyList feedIdentifiers
    let fids : Option (List String) := match fids0 with
      | some l => some l
      | none =>
        let matched := (st.feeds.filter (feedNameMatchesBidir vars)).map (fun f => f.id)
        if matched.isEmpty then none else some matched
    let feedsToQuery := match fids with
      | some l => l.filterMap (findFeed st)
      | none => st.feeds
    sortByStartKey (feedsToQuery.flatMap (searchFeedEvents vars))

/-! ### Conflict Analyzer (`analyze_calendar_conflicts` and helpers) -/

/-- Python `str(...)` of an optional string value read from a dictionary key
that is always present: `None` prints as `"None"`. -/
def pyStr : Option String → String
  | none => "None"
  | some s => s

/-- `_is_all_day_event`, the analyzer's duration-based heuristic: true when
the serialized start has no `T`, or both start and end carry a literal
midnight `T00:00:00`, or the parsed duration is a positive whole multiple of
24 hours starting at midnight. -/
def isAllDayEvent (e : EventDict) : Bool :=
  let s := pyStr e.start
  let en := pyStr e.endTime
  if ¬ containsSub "T" s ∨ (containsSub "T00:00:00" s ∧ containsSub "T00:00:00" en) then
    true
  else
    match normalizeDatetimeOpt e.start, normalizeDatetimeOpt e.endTime with
    | some sd, some ed =>
      let durSec := (ed - sd) * 60
      if durSec % 86400 = 0 ∧ durSec ≥ 86400 ∧
         (sd.fmod 1440) / 60 = 0 ∧ (sd.fmod 1440) % 60 = 0 then true
      else false
    | _, _ => false

/-- The per-event sub-dictionary stored in a conflict record.  `id` is
`event.get('uid', ...)`; since every normalized event dictionary has a `uid`
key, the default is never consulted and the stored value is the (possibly
absent) uid itself.  `feed` is `event.get('feed_name', 'unknown')`; normalized
event dictionaries carry `source_feed_name`, not `feed_name`, so this is
always the literal `"unknown"`. -/
structure ConflictEventRef where
  id : Option String
  summary : Option String
  start : Option String
  endTime : Option String
  allDay : Bool
  feed : String
deriving DecidableEq, Repr

/-- A conflict record (`_analyze_event_overlap` output, with the `severity`
key added by the analysis loop; before that step the field reads `""`). -/
structure ConflictInfo where
  event1 : ConflictEventRef
  event2 : ConflictEventRef
  overlapStart : String
  overlapEnd : String
  overlapDurationMinutes : Nat
  conflictType : String
  overlapMinutes : Nat
  severity : String := ""
deriving DecidableEq, Repr

def mkConflictEventRef (e : EventDict) (allDay : Bool) : ConflictEventRef :=
  { id := e.uid, summary := e.summary, start := e.start, endTime := e.endTime,
    allDay := allDay, feed := "unknown" }

/-- `_analyze_event_overlap`: re-parse the four serialized timestamps (absent
or unparsable ⇒ no conflict), require a strict overlap, drop non-positive
overlap intervals, and classify the conflict type. -/
def analyzeEventOverlap (e1 e2 : EventDict) (a1 a2 : Bool) : Option ConflictInfo :=
  match normalizeDatetimeOpt e1.start, normalizeDatetimeOpt e1.endTime,
        normalizeDatetimeOpt e2.start, normalizeDatetimeOpt e2.endTime with
  | some s1, some en1, some s2, some en2 =>
    if ¬ (s1 < en2 ∧ en1 > s2) then none
    else
      let overlapStart := max s1 s2
      let overlapEnd := min en1 en2
      if (overlapEnd - overlapStart) * 60 ≤ 0 then none
      else
        let overlapMinutes := (max 0 (overlapEnd - overlapStart)).toNat
        let conflictType :=
          if a1 ∨ a2 then "all_day_overlap"
          else if s1 = s2 ∧ en1 = en2 then "exact_overlap"
          else if s1 = s2 ∨ en1 = en2 then "partial_overlap"
          else "time_overlap"
        some { event1 := mkConflictEventRef e1 a1, event2 := mkConflictEventRef e2 a2,
               overlapStart := isoOfMinutes overlapStart,
               overlapEnd := isoOfMinutes overlapEnd,
               overlapDurationMinutes := overlapMinutes,
               conflictType := conflictType, overlapMinutes := overlapMinutes }
  | _, _, _, _ => none

/-- `_determine_conflict_severity`: sequential high checks, then low checks,
default medium.  Statuses read through `str(...).lower()` (absent ⇒ "none"). -/
def determineConflictSeverity (ci : ConflictInfo) (e1 e2 : EventDict) : String :=
  if ci.conflictType = "exact_overlap" then "high"
  else if ci.overlapMinutes ≥ 60 then "high"
  else if ci.conflictType = "time_overlap" ∧ ci.overlapMinutes ≥ 30 then "high"
  else if ci.conflictType = "all_day_overlap" then "low"
  else if ci.overlapMinutes ≤ 15 then "low"
  else if containsSub "tentative" (lowerStr (pyStr e1.status)) ∨
          containsSub "tentative" (lowerStr (pyStr e2.status)) then "low"
  else "medium"

/-- `severity_levels.get(s, 0)`. -/
def severityLevel (s : String) : Nat :=
  if s = "low" then 1 else if s = "medium" then 2 else if s = "high" then 3 else 0

/-- `_meets_severity_threshold`. -/
def meetsSeverityThreshold (severity threshold : String) : Bool :=
  if threshold = "all" then true
  else severityLevel severity ≥ severityLevel threshold

/-- The inner-loop body of the conflict scan: for a pair `(e1, e2)` with `e1`
already admitted, skip `e2` when all-day events are excluded or both events
are all-day, analyze the overlap, keep conflicts meeting the minimum overlap,
attach the severity, and filter by threshold. -/
def conflictOfPair (includeAllDay : Bool) (minOverlapMinutes : Nat)
    (severityThreshold : String) (e1 e2 : EventDict) : Option ConflictInfo :=
  if ¬ includeAllDay ∧ isAllDayEvent e2 then none
  else if isAllDayEvent e1 ∧ isAllDayEvent e2 then none
  else
    match analyzeEventOverlap e1 e2 (isAllDayEvent e1) (isAllDayEvent e2) with
    | none => none
    | some ci =>
      if ci.overlapMinutes ≥ minOverlapMinutes then
        if meetsSeverityThreshold (determineConflictSeverity ci e1 e2) severityThreshold then
          some { ci with severity := determineConflictSeverity ci e1 e2 }
        else none
      else none

/-- The pairwise scan of `analyze_calendar_conflicts` over the queried event
list: every ordered pair `(i, j)` with `i < j`, with `e1` skipped outright
when all-day events are excluded and `e1` is all-day. -/
def conflictScan (events : List EventDict) (includeAllDay : Bool)
    (minOverlapMinutes : Nat) (severityThreshold : String) : List ConflictInfo :=
  events.tails.flatMap (fun tl =>
    match tl with
    | [] => []
    | e1 :: rest =>
      if ¬ includeAllDay ∧ isAllDayEvent e1 then []
      else rest.filterMap (conflictOfPair includeAllDay minOverlapMinutes severityThreshold e1))

/-- `_generate_conflict_recommendations`. -/
def generateConflictRecommendations (high medium low : List ConflictInfo) :
    List String :=
  let highCount := high.length
  let mediumCount := medium.length
  let lowCount := low.length
  let r1 : List String :=
    if highCount > 0 then
      ["⚠️ You have " ++ toString highCount ++
       " high-severity conflicts that need immediate attention"]
    else []
  let r2 : List String :=
    if highCount > 3 then
      ["Consider rescheduling some meetings or delegating responsibilities"]
    else []
  let r3 : List String :=
    if mediumCount > 5 then
      ["Review medium-severity conflicts to see if any can be adjusted"]
    else []
  let r4 : List String :=
    if lowCount > 10 then
      ["Many low-severity conflicts detected - your calendar might be over-scheduled"]
    else []
  let r5 : List String :=
    if highCount = 0 ∧ mediumCount = 0 then
      if lowCount > 0 then
        ["✅ Only low-severity conflicts found - your schedule looks manageable"]
      else
        ["✅ No conflicts detected - your calendar is clear!"]
    else []
  r1 ++ r2 ++ r3 ++ r4 ++ r5

/-- The analysis dictionary returned by `analyze_calendar_conflicts`.
`conflictPercentTenths` models the float `conflict_percentage` (one decimal
digit, i.e. tenths of a percent); Python's float `round(x, 1)` is abstracted
to integer half-up rounding here — no claim refers to this field. -/
structure ConflictAnalysis where
  periodStart : String
  periodEnd : String
  periodDays : Nat
  timezone : String
  includeAllDay : Bool
  minOverlapMinutes : Nat
  severityThreshold : String
  conflicts : List ConflictInfo
  highSeverity : List ConflictInfo
  mediumSeverity : List ConflictInfo
  lowSeverity : List ConflictInfo
  totalConflicts : Nat
  highCount : Nat
  mediumCount : Nat
  lowCount : Nat
  totalEvents : Nat
  eventsWithConflicts : Nat
  conflictPercentTenths : Nat
  recommendations : List String
deriving DecidableEq, Repr

/-- `analyze_calendar_conflicts`: query `[now, now + days_ahead]` through
`get_events`, run the pairwise scan, group by severity and derive statistics
and recommendations. -/
def analyzeCalendarConflicts (st : ServiceState) (now : Int) (daysAhead : Nat)
    (includeAllDay : Bool) (minOverlapMinutes : Nat) (severityThreshold : String) :
    Except String ConflictAnalysis :=
  let endD := now + (daysAhead : Int) * 1440
  (getEvents st now (some (isoOfMinutes now)) (some (isoOfMinutes endD)) none none 0).map
    (fun events =>
      let conflicts := conflictScan events includeAllDay minOverlapMinutes severityThreshold
      let high := conflicts.filter (fun c => c.severity == "high")
      let medium := conflicts.filter (fun c => c.severity == "medium")
      let low := conflicts.filter (fun c => c.severity == "low")
      { periodStart := isoOfMinutes now, periodEnd := isoOfMinutes endD,
        periodDays := daysAhead, timezone := "UTC",
        includeAllDay := includeAllDay, minOverlapMinutes := minOverlapMinutes,
        severityThreshold := severityThreshold,
        conflicts := conflicts,
        highSeverity := high, mediumSeverity := medium, lowSeverity := low,
        totalConflicts := conflicts.length,
        highCount := high.length, mediumCount := medium.length, lowCount := low.length,
        totalEvents := events.length,
        eventsWithConflicts :=
          ((conflicts.map (fun c => c.event1.id)) ++
           (conflicts.map (fun c => c.event2.id))).eraseDups.length,
        conflictPercentTenths :=
          if events.isEmpty then 0
          else (2 * (conflicts.length * 1000) + max events.length 1) /
                 (2 * max events.length 1),
        recommendations := generateConflictRecommendations high medium low })

/-! ### Concrete fixtures used by example theorems, witnesses and
counterexamples.  `t20240101` is 2024-01-01T00:00 UTC in minutes since the
epoch (day 19723). -/

def t20240101 : Int := 28401120

/-- Timed event 2024-01-01T10:00Z–11:00Z. -/
def evA : VComponent :=
  { compName := "VEVENT", uid := some "uid-a", summary := some "Event A",
    dtstart := some (.timed (t20240101 + 600)),
    dtend := some (.timed (t20240101 + 660)),
    occurrences := [(.timed (t20240101 + 600), some (.timed (t20240101 + 660)))] }

/-- Timed event 2024-01-01T10:30Z–11:30Z. -/
def evB : VComponent :=
  { compName := "VEVENT", uid := some "uid-b", summary := some "Event B",
    dtstart := some (.timed (t20240101 + 630)),
    dtend := some (.timed (t20240101 + 690)),
    occurrences := [(.timed (t20240101 + 630), some (.timed (t20240101 + 690)))] }

def feedC2 : Feed :=
  { url := "https://example.com/a.ics", name := "example", id := "feedc2aa",
    calendar := some { components := [evA, evB] } }

def stC2 : ServiceState := { feeds := [feedC2] }

/-- Non-recurring event ten days after `t20240101`, one hour long. -/
def evFar : VComponent :=
  { compName := "VEVENT", uid := some "uid-far", summary := some "Far event",
    dtstart := some (.timed (t20240101 + 14400)),
    dtend := some (.timed (t20240101 + 14460)),
    occurrences := [(.timed (t20240101 + 14400), some (.timed (t20240101 + 14460)))] }

def feedC6 : Feed :=
  { url := "https://example.com/far.ics", name := "farcal", id := "feedc6aa",
    calendar := some { components := [evFar] } }

def stC6 : ServiceState := { feeds := [feedC6] }

/-- Event whose text fields do not mention "team". -/
def evStandup : VComponent :=
  { compName := "VEVENT", uid := some "uid-standup", summary := some "Standup",
    dtstart := some (.timed (t20240101 + 540)),
    dtend := some (.timed (t20240101 + 555)),
    occurrences := [(.timed (t20240101 + 540), some (.timed (t20240101 + 555)))] }

/-- Event in another feed whose summary contains "team". -/
def evTeamMeeting : VComponent :=
  { compName := "VEVENT", uid := some "uid-teammeet", summary := some "team meeting",
    dtstart := some (.timed (t20240101 + 700)),
    dtend := some (.timed (t20240101 + 760)),
    occurrences := [(.timed (t20240101 + 700), some (.timed (t20240101 + 760)))] }

def feedTeam : Feed :=
  { url := "https://a.example/a.ics", name := "team", id := "feedteam",
    calendar := some { components := [evStandup] } }

def feedWork : Feed :=
  { url := "https://b.example/b.ics", name := "work", id := "feedwork",
    calendar := some { components := [evTeamMeeting] } }

def stC5 : ServiceState := { feeds := [feedTeam, feedWork] }

/-- Zero-length timed event at 2024-01-01T10:00Z (start = end). -/
def zeroLenEvent : EventDict :=
  { uid := some "uid-z1", summary := some "Zero length",
    start := some "2024-01-01T10:00:00+00:00",
    endTime := some "2024-01-01T10:00:00+00:00",
    sourceFeed := "", sourceFeedName := "", sourceFeedId := "" }

/-- Timed event 2024-01-01T09:00Z–11:00Z. -/
def wideEvent : EventDict :=
  { uid := some "uid-z2", summary := some "Wide",
    start := some "2024-01-01T09:00:00+00:00",
    endTime := some "2024-01-01T11:00:00+00:00",
    sourceFeed := "", sourceFeedName := "", sourceFeedId := "" }

/-- Component with an explicit `DTEND` one hour before its `DTSTART`. -/
def evBackwards : VComponent :=
  { compName := "VEVENT", uid := some "uid-back",
    dtstart := some (.timed (t20240101 + 600)),
    dtend := some (.timed (t20240101 + 540)) }

/-- Component with no explicit end and a negative `DURATION` (minus two
hours). -/
def evNegDuration : VComponent :=
  { compName := "VEVENT", uid := some "uid-negdur",
    dtstart := some (.timed (t20240101 + 600)),
    duration := some (-120) }

def feedPlain : Feed :=
  { url := "https://p.example/p.ics", name := "plain", id := "feedplai" }

/-- Event dictionary whose start string is unparsable. -/
def badStartEvent : EventDict :=
  { uid := some "uid-bad", summary := some "Bad start",
    start := some "not-a-date",
    endTime := some "2024-01-01T10:00:00+00:00",
    sourceFeed := "", sourceFeedName := "", sourceFeedId := "" }

def urlC7 : String := "https://example.com/cal.ics"

def feedC7 : Feed := { url := urlC7, name := "mycal", id := "cafed00d" }

def stC7 : ServiceState := { feeds := [feedC7] }

/-! ### Specification-side definitions, for comparison with the code-side
ones in refinement-style claims -/

/-- The severity classification exactly as the specification words it:
`high` if the type is `exact_overlap`, or the overlap is at least 60 minutes,
or (`time_overlap` and at least 30 minutes); else `low` if the type is
`all_day_overlap`, or the overlap is at most 15 minutes, or either event's
status contains "tentative" case-insensitively; else `medium`. -/
def severitySpec (ci : ConflictInfo) (e1 e2 : EventDict) : String :=
  if ci.conflictType = "exact_overlap" ∨ ci.overlapMinutes ≥ 60 ∨
     (ci.conflictType = "time_overlap" ∧ ci.overlapMinutes ≥ 30) then "high"
  else if ci.conflictType = "all_day_overlap" ∨ ci.overlapMinutes ≤ 15 ∨
          containsSub "tentative" (lowerStr (pyStr e1.status)) = true ∨
          containsSub "tentative" (lowerStr (pyStr e2.status)) = true then "low"
  else "medium"

/-- The feeds an unfiltered search actually scans (amended claim C5): the
feeds whose name matches a query variant bidirectionally when there are any,
otherwise every feed. -/
def searchedFeeds (st : ServiceState) (query : String) : List Feed :=
  if (st.feeds.filter (feedNameMatchesBidir (queryVariations query))).isEmpty then
    st.feeds
  else st.feeds.filter (feedNameMatchesBidir (queryVariations query))

/-- What `get_upcoming_events` computes, as the amended claim C6 words it:
scan the raw, un-expanded `VEVENT` components of the selected feeds, keep
those whose parsed start is at or after `now` (with no upper window bound),
sort stably by that start instant, and return the first `count`, normalized.
This is not a `get_events` specialization: there is no recurrence expansion
and no end bound. -/
def upcomingFromRaw (st : ServiceState) (now : Int) (count : Nat)
    (feedIdentifiers : Option (List String)) : List EventDict :=
  let fids := truthyList feedIdentifiers
  let feedsToQuery := match fids with
    | some l => l.filterMap (findFeed st)
    | none => st.feeds
  let futureEvents := feedsToQuery.flatMap (fun feed =>
    match feed.calendar with
    | none => []
    | some cal =>
      (cal.components.filter (fun c => c.compName == "VEVENT")).filterMap (fun c =>
        match c.dtstart with
        | some t =>
          let evDt := normalizeIcalTime t
          if evDt ≥ now then some (evDt, eventToDict c feed) else none
        | none => none))
  ((stableSort (fun a b => decide (a.1 ≤ b.1)) futureEvents).take count).map
    (fun p => p.2)

/-- The single conflict record that the C2 example scenario produces. -/
def expectedC2Conflict : ConflictInfo :=
  { event1 := { id := some "uid-a", summary := some "Event A",
                start := some "2024-01-01T10:00:00+00:00",
                endTime := some "2024-01-01T11:00:00+00:00",
                allDay := false, feed := "unknown" },
    event2 := { id := some "uid-b", summary := some "Event B",
                start := some "2024-01-01T10:30:00+00:00",
                endTime := some "2024-01-01T11:30:00+00:00",
                allDay := false, feed := "unknown" },
    overlapStart := "2024-01-01T10:30:00+00:00",
    overlapEnd := "2024-01-01T11:00:00+00:00",
    overlapDurationMinutes := 30, conflictType := "time_overlap",
    overlapMinutes := 30, severity := "high" }

/-! ## Theorems -/

instance {ε α : Type} [DecidableEq ε] [DecidableEq α] : DecidableEq (Except ε α) :=
  fun a b =>
    match a, b with
    | .error x, .error y => decidable_of_iff (x = y) (by simp)
    | .ok x, .ok y => decidable_of_iff (x = y) (by simp)
    | .error _, .ok _ => isFalse (by simp)
    | .ok _, .error _ => isFalse (by simp)

theorem toLEBytes_length (n x : Nat) : (toLEBytes n x).length = n := by
  simp [toLEBytes]

theorem md5Bytes_length (msg : List Nat) : (md5Bytes msg).length = 16 := by
  simp [md5Bytes, toLEBytes_length]

theorem bytesToHexChars_length (bs : List Nat) :
    (bytesToHexChars bs).length = 2 * bs.length := by
  induction bs with
  | nil => rfl
  | cons b t ih =>
    simp only [bytesToHexChars, List.flatMap_cons, List.length_append,
      List.length_cons, List.length_nil, List.length_cons] at *
    omega

theorem hexDigitChar_mem (n : Nat) : hexDigitChar n ∈ "0123456789abcdef".toList := by
  have hlen : ("0123456789abcdef".toList).length = 16 := by decide
  have h : n % 16 < ("0123456789abcdef".toList).length := by
    rw [hlen]; exact Nat.mod_lt _ (by decide)
  rw [hexDigitChar, List.getD_eq_getElem _ _ h]
  exact List.getElem_mem h

theorem mem_bytesToHexChars {c : Char} {bs : List Nat}
    (h : c ∈ bytesToHexChars bs) : c ∈ "0123456789abcdef".toList := by
  simp only [bytesToHexChars, List.mem_flatMap, List.mem_cons, List.not_mem_nil,
    or_false] at h
  obtain ⟨b, _, hc | hc⟩ := h <;> exact hc ▸ hexDigitChar_mem _

theorem feedIdOf_length (url : String) : (feedIdOf url).length = 8 := by
  have h32 : (md5HexChars url).length = 32 := by
    unfold md5HexChars
    rw [bytesToHexChars_length, md5Bytes_length]
  show ((md5HexChars url).take 8).length = 8
  rw [List.length_take, h32]
  decide

theorem feedIdOf_hex (url : String) :
    ∀ c ∈ (feedIdOf url).toList, c ∈ "0123456789abcdef".toList := by
  intro c hc
  have hc2 : c ∈ (md5HexChars url).take 8 := hc
  exact mem_bytesToHexChars (List.mem_of_mem_take hc2)

/-- C1: `_refresh_single_calendar` lets no fetch failure escape as an
exception.  On timeout, HTTP error, or any other failure it leaves the
previously cached `parsed_calendar` and `last_fetch` untouched, records the
classified message on `feed.error`, and returns an error result dictionary;
on success it replaces the calendar, sets `last_fetch` to the current UTC
time, and clears `feed.error`. -/
theorem C1_fetch_failure_keeps_stale_state (feed : Feed) (outcome : FetchOutcome)
    (now : Int) :
    match outcome, refreshSingleCalendar feed outcome now with
    | .success cal, (f, r) =>
        f.calendar = some cal ∧ f.lastFetch = some now ∧ f.error = none ∧
        r.status = "success" ∧ r.error = none
    | .timeout, (f, r) =>
        f.calendar = feed.calendar ∧ f.lastFetch = feed.lastFetch ∧
        f.error = some "Connection timeout" ∧
        r.status = "error" ∧ r.error = some (timeoutErrorMsg feed.name)
    | .httpError statusCode excText, (f, r) =>
        f.calendar = feed.calendar ∧ f.lastFetch = feed.lastFetch ∧
        f.error = some excText ∧
        r.status = "error" ∧ r.error = some (httpErrorMsg feed.name statusCode excText)
    | .failure excText, (f, r) =>
        f.calendar = feed.calendar ∧ f.lastFetch = feed.lastFetch ∧
        f.error = some excText ∧
        r.status = "error" ∧ r.error = some (fetchFailureMsg feed.name excText) := by
  cases outcome <;> simp [refreshSingleCalendar]

/-- C2: the conflict severity is exactly the spec's classification (`high` on
exact overlap, overlap of at least 60 minutes, or a `time_overlap` of at
least 30; else `low` on `all_day_overlap`, overlap of at most 15 minutes, or
a tentative participant; else `medium`), and the concrete pair
2024-01-01T10:00Z-11:00Z / 10:30Z-11:30Z run through
`analyze_calendar_conflicts` yields exactly one conflict with
`conflict_type = time_overlap`, `overlap_minutes = 30`, `severity = high`. -/
theorem C2_severity_classification :
    (∀ (ci : ConflictInfo) (e1 e2 : EventDict),
       determineConflictSeverity ci e1 e2 = severitySpec ci e1 e2)
    ∧ (analyzeCalendarConflicts stC2 t20240101 7 false 0 "all").map
        (fun a => a.conflicts) = .ok [expectedC2Conflict]
    ∧ expectedC2Conflict.conflictType = "time_overlap"
    ∧ expectedC2Conflict.overlapMinutes = 30
    ∧ expectedC2Conflict.severity = "high" := by
  refine ⟨?_, by decide, rfl, rfl, rfl⟩
  intro ci e1 e2
  unfold determineConflictSeverity severitySpec
  split_ifs <;> first | rfl | tauto

/-- C4 (amended): when the source component omits an explicit `DTEND`, the
derived end is at or after the start for the one-hour default, the date-only
fallback, and any non-negative `DURATION`; an explicit `DTEND` (or a negative
`DURATION`) is taken as-is and may precede the start, as the counterexample
shows. -/
theorem C4_derived_end_not_before_start :
    ∀ (start : IcalTime) (duration : Option Int),
      (duration = none ∨ ∃ d, duration = some d ∧ 0 ≤ d) →
      ∀ en, derivedDtend (some start) none duration = some en →
        normalizeIcalTime start ≤ normalizeIcalTime en := by
  rintro st dur (rfl | ⟨d, rfl, hd⟩) en h
  · rcases st with m | dd
    · simp [derivedDtend, dtendFromDuration, dtendDefault] at h
      subst h; simp [normalizeIcalTime]
    · simp [derivedDtend, dtendFromDuration, dtendDefault] at h
      subst h; simp [normalizeIcalTime]
  · rcases st with m | dd
    · simp [derivedDtend, dtendFromDuration, dtendDefault] at h
      subst h; simp [normalizeIcalTime]; omega
    · simp [derivedDtend, dtendFromDuration, dtendDefault] at h
      subst h; simp [normalizeIcalTime]
      have h0 : 0 ≤ Int.fdiv d 1440 := Int.fdiv_nonneg hd (by norm_num)
      nlinarith

theorem C4_witness :
    derivedDtend (some (.timed 28401720)) none none = some (.timed 28401780)
    ∧ normalizeIcalTime (.timed 28401720) ≤ normalizeIcalTime (.timed 28401780) :=
  ⟨by decide,
   C4_derived_end_not_before_start (.timed 28401720) none (Or.inl rfl)
     (.timed 28401780) (by decide)⟩

/-- C4 counterexample: an explicit `DTEND` one hour before `DTSTART` passes
through the normalizer unchanged, so the normalized event has `end < start`;
likewise a negative `DURATION` derives an end before the start. -/
theorem C4_counterexample :
    (eventToDict evBackwards feedPlain).start = some "2024-01-01T10:00:00+00:00"
    ∧ (eventToDict evBackwards feedPlain).endTime = some "2024-01-01T09:00:00+00:00"
    ∧ normalizeDatetimeOpt (eventToDict evBackwards feedPlain).start = some 28401720
    ∧ normalizeDatetimeOpt (eventToDict evBackwards feedPlain).endTime = some 28401660
    ∧ (28401660 : Int) < 28401720
    ∧ (eventToDict evNegDuration feedPlain).start = some "2024-01-01T10:00:00+00:00"
    ∧ (eventToDict evNegDuration feedPlain).endTime = some "2024-01-01T08:00:00+00:00" := by
  decide

/-- C6 (amended): the `today`, `tomorrow`, `week` and `month` wrappers are
fixed-window `get_events` calls, but `get_upcoming_events` is not a
`get_events` specialization: it scans raw components without recurrence
expansion and keeps events with parsed start at or after `now`, with no upper
window bound, sorted by start and truncated to `count`. -/
theorem C6_wrappers_vs_upcoming :
    (∀ (st : ServiceState) (now : Int) (fids : Option (List String)),
       getTodayEvents st now fids =
         getEvents st now (some (isoOfMinutes (midnightOf now)))
           (some (isoOfMinutes (midnightOf now + 1440))) fids none 0)
    ∧ (∀ (st : ServiceState) (now : Int),
         getTomorrowEvents st now =
           getEvents st now (some (isoOfMinutes (midnightOf now + 1440)))
             (some (isoOfMinutes (midnightOf now + 2880))) none none 0)
    ∧ (∀ (st : ServiceState) (now : Int),
         getWeekEvents st now =
           getEvents st now (some (isoOfMinutes (startOfWeek now)))
             (some (isoOfMinutes (startOfWeek now + 7 * 1440))) none none 0)
    ∧ (∀ (st : ServiceState) (now : Int),
         getMonthEvents st now =
           getEvents st now (some (isoOfMinutes (monthWindow now).1))
             (some (isoOfMinutes (monthWindow now).2)) none none 0)
    ∧ (∀ (st : ServiceState) (now : Int) (count : Nat) (fids : Option (List String)),
         getUpcomingEvents st now count fids = upcomingFromRaw st now count fids) :=
  ⟨fun _ _ _ => rfl, fun _ _ => rfl, fun _ _ => rfl, fun _ _ => rfl,
   fun _ _ _ _ => rfl⟩

/-- C6 counterexample: a single non-recurring event ten days out.
`get_upcoming_events(1)` returns it, while `get_events` over the
corresponding default window starting at `now` ([now, now+7d], truncated to
one result) returns nothing — the wrapper is not a windowed `get_events`. -/
theorem C6_counterexample :
    getUpcomingEvents stC6 t20240101 1 none = [eventToDict evFar feedC6]
    ∧ getEvents stC6 t20240101 none none none (some 1) 0 = .ok [] := by
  decide

/-- C7: a feed's identifier is derived deterministically from the URL alone
as the first 8 hex characters of the URL's MD5, and `add_feed` on an
already-registered URL (raw URL equality) returns `already_exists`
referencing the existing feed and leaves the registry unchanged. -/
theorem C7_feed_identity (st : ServiceState) (url : String) (name : Option String)
    (outcome : FetchOutcome) (now : Int) (f : Feed)
    (hval : validateUrl url = .ok ())
    (hfound : st.feeds.find? (fun g => g.url == url) = some f) :
    addFeed st url name outcome now = .ok (st, alreadyExistsResult url f)
    ∧ (mkFeed url name).id = feedIdOf url
    ∧ (feedIdOf url).length = 8
    ∧ ∀ c ∈ (feedIdOf url).toList, c ∈ "0123456789abcdef".toList := by
  refine ⟨?_, rfl, feedIdOf_length url, feedIdOf_hex url⟩
  unfold addFeed
  rw [hval, hfound]

theorem C7_witness :
    validateUrl urlC7 = .ok ()
    ∧ stC7.feeds.find? (fun g => g.url == urlC7) = some feedC7
    ∧ addFeed stC7 urlC7 none .timeout 0 = .ok (stC7, alreadyExistsResult urlC7 feedC7) :=
  ⟨by decide, by decide,
   (C7_feed_identity stC7 urlC7 none .timeout 0 feedC7 (by decide) (by decide)).1⟩

/-- C10: `search_events` with an empty query returns the empty list for every
feed state and filter, scanning nothing and raising nothing. -/
theorem C10_empty_query_returns_nothing (st : ServiceState)
    (fids : Option (List String)) : searchEvents st "" fids = [] := by
  simp [searchEvents]

theorem mem_insertStable {le : α → α → Bool} {a x : α} {l : List α} :
    x ∈ insertStable le a l ↔ x = a ∨ x ∈ l := by
  induction l with
  | nil => simp [insertStable]
  | cons b t ih =>
    unfold insertStable
    split
    · simp only [List.mem_cons, ih]
      tauto
    · simp only [List.mem_cons]

theorem mem_stableSort {le : α → α → Bool} {x : α} {l : List α} :
    x ∈ stableSort le l ↔ x ∈ l := by
  have key : ∀ (l acc : List α),
      x ∈ l.foldl (fun acc a => insertStable le a acc) acc ↔ x ∈ acc ∨ x ∈ l := by
    intro l
    induction l with
    | nil => intro acc; simp
    | cons a t ih =>
      intro acc
      rw [List.foldl_cons, ih, mem_insertStable]
      simp only [List.mem_cons]
      tauto
  rw [stableSort, key]
  simp

theorem mem_sortByStartKey {ev : EventDict} {l : List EventDict} :
    ev ∈ sortByStartKey l ↔ ev ∈ l := mem_stableSort

theorem find?_id_of_nodup (l : List Feed) (f : Feed)
    (hnd : (l.map (fun g => g.id)).Nodup) (hf : f ∈ l) :
    l.find? (fun g => g.id == f.id) = some f := by
  induction l with
  | nil => cases hf
  | cons a t ih =>
    rw [List.map_cons, List.nodup_cons] at hnd
    rcases List.mem_cons.mp hf with rfl | hft
    · rw [List.find?_cons_of_pos]
      simp
    · rw [List.find?_cons_of_neg, ih hnd.2 hft]
      intro hbeq
      have hid : a.id = f.id := by simpa using hbeq
      exact hnd.1 (hid ▸ List.mem_map.mpr ⟨f, hft, rfl⟩)

theorem findFeed_id (st : ServiceState) (f : Feed)
    (hnd : (st.feeds.map (fun g => g.id)).Nodup) (hf : f ∈ st.feeds) :
    findFeed st f.id = some f := by
  unfold findFeed
  rw [find?_id_of_nodup st.feeds f hnd hf]

theorem filterMap_findFeed_map_id (st : ServiceState)
    (hnd : (st.feeds.map (fun g => g.id)).Nodup) :
    ∀ sub : List Feed, (∀ f ∈ sub, f ∈ st.feeds) →
      (sub.map (fun f => f.id)).filterMap (findFeed st) = sub := by
  intro sub
  induction sub with
  | nil => intro _; rfl
  | cons a t ih =>
    intro hsub
    rw [List.map_cons, List.filterMap_cons,
      findFeed_id st a hnd (hsub a (List.mem_cons_self a t)),
      ih (fun f hf => hsub f (List.mem_cons_of_mem a hf))]

theorem mem_searchFeedEvents {vars : List String} {feed : Feed} {ev : EventDict} :
    ev ∈ searchFeedEvents vars feed ↔
      ∃ cal, feed.calendar = some cal ∧
        ∃ c ∈ cal.components, c.compName = "VEVENT" ∧
          (textMatches vars c = true ∨ feedNameMatchesFwd vars feed = true) ∧
          ev = eventToDict c feed := by
  unfold searchFeedEvents
  cases hcal : feed.calendar with
  | none => simp [hcal]
  | some cal =>
    simp only [hcal, Option.some.injEq, List.mem_filterMap, List.mem_filter,
      beq_iff_eq]
    constructor
    · rintro ⟨c, ⟨hc, hname⟩, hsome⟩
      rw [apply_ite (f := fun o => o = some ev)] at hsome
      by_cases hcond : (textMatches vars c || feedNameMatchesFwd vars feed) = true
      · rw [if_pos hcond] at hsome
        exact ⟨cal, rfl, c, hc, hname,
          by simpa using hcond, (Option.some.injEq _ _ ▸ hsome).symm⟩
      · rw [if_neg hcond] at hsome
        simp at hsome
    · rintro ⟨cal2, hcal2, c, hc, hname, hcond, rfl⟩
      obtain rfl : cal = cal2 := by simpa using hcal2
      refine ⟨c, ⟨hc, hname⟩, ?_⟩
      rw [if_pos (by simpa using hcond)]

theorem overlap_none_of_unparsable (e1 e2 : EventDict) (a1 a2 : Bool)
    (hd : normalizeDatetimeOpt e1.start = none ∨ normalizeDatetimeOpt e1.endTime = none ∨
          normalizeDatetimeOpt e2.start = none ∨ normalizeDatetimeOpt e2.endTime = none) :
    analyzeEventOverlap e1 e2 a1 a2 = none := by
  rcases hs1 : normalizeDatetimeOpt e1.start with _ | s1 <;>
  rcases hs2 : normalizeDatetimeOpt e1.endTime with _ | t1 <;>
  rcases hs3 : normalizeDatetimeOpt e2.start with _ | s2 <;>
  rcases hs4 : normalizeDatetimeOpt e2.endTime with _ | t2 <;>
    simp_all [analyzeEventOverlap]

theorem overlap_some_parse {e1 e2 : EventDict} {a1 a2 : Bool} {ci : ConflictInfo}
    (h : analyzeEventOverlap e1 e2 a1 a2 = some ci) :
    ∃ s1 en1 s2 en2 : Int,
      normalizeDatetimeOpt e1.start = some s1 ∧
      normalizeDatetimeOpt e1.endTime = some en1 ∧
      normalizeDatetimeOpt e2.start = some s2 ∧
      normalizeDatetimeOpt e2.endTime = some en2 := by
  rcases hs1 : normalizeDatetimeOpt e1.start with _ | s1 <;>
  rcases hs2 : normalizeDatetimeOpt e1.endTime with _ | t1 <;>
  rcases hs3 : normalizeDatetimeOpt e2.start with _ | s2 <;>
  rcases hs4 : normalizeDatetimeOpt e2.endTime with _ | t2 <;>
    simp_all [analyzeEventOverlap]

theorem overlap_characterize (e1 e2 : EventDict) (a1 a2 : Bool)
    (s1 en1 s2 en2 : Int)
    (h1 : normalizeDatetimeOpt e1.start = some s1)
    (h2 : normalizeDatetimeOpt e1.endTime = some en1)
    (h3 : normalizeDatetimeOpt e2.start = some s2)
    (h4 : normalizeDatetimeOpt e2.endTime = some en2) :
    analyzeEventOverlap e1 e2 a1 a2 =
      (if s1 < en2 ∧ en1 > s2 then
         if max s1 s2 < min en1 en2 then
           some { event1 := mkConflictEventRef e1 a1,
                  event2 := mkConflictEventRef e2 a2,
                  overlapStart := isoOfMinutes (max s1 s2),
                  overlapEnd := isoOfMinutes (min en1 en2),
                  overlapDurationMinutes := (min en1 en2 - max s1 s2).toNat,
                  conflictType :=
                    if a1 ∨ a2 then "all_day_overlap"
                    else if s1 = s2 ∧ en1 = en2 then "exact_overlap"
                    else if s1 = s2 ∨ en1 = en2 then "partial_overlap"
                    else "time_overlap",
                  overlapMinutes := (min en1 en2 - max s1 s2).toNat }
         else none
       else none) := by
  simp only [analyzeEventOverlap, h1, h2, h3, h4]
  split_ifs <;>
    first
      | rfl
      | omega
      | tauto
      | (have hmx : max 0 (min en1 en2 - max s1 s2) = min en1 en2 - max s1 s2 := by
           omega
         rw [hmx])

theorem conflictOfPair_some {iad : Bool} {mo : Nat} {thr : String}
    {e1 e2 : EventDict} {ci : ConflictInfo}
    (h : conflictOfPair iad mo thr e1 e2 = some ci) :
    ∃ ci0, analyzeEventOverlap e1 e2 (isAllDayEvent e1) (isAllDayEvent e2) = some ci0 ∧
      ci = { ci0 with severity := determineConflictSeverity ci0 e1 e2 } ∧
      mo ≤ ci0.overlapMinutes := by
  unfold conflictOfPair at h
  split at h
  · exact absurd h (by simp)
  split at h
  · exact absurd h (by simp)
  split at h
  · exact absurd h (by simp)
  next ci0 heq =>
    split at h
    · split at h
      · exact ⟨ci0, heq, (Option.some.injEq _ _ ▸ h).symm, by omega⟩
      · exact absurd h (by simp)
    · exact absurd h (by simp)

theorem mem_conflictScan {events : List EventDict} {iad : Bool} {mo : Nat}
    {thr : String} {ci : ConflictInfo}
    (h : ci ∈ conflictScan events iad mo thr) :
    ∃ e1 e2 ci0,
      analyzeEventOverlap e1 e2 (isAllDayEvent e1) (isAllDayEvent e2) = some ci0 ∧
      ci = { ci0 with severity := determineConflictSeverity ci0 e1 e2 } ∧
      mo ≤ ci0.overlapMinutes := by
  unfold conflictScan at h
  rw [List.mem_flatMap] at h
  obtain ⟨tl, htl, h⟩ := h
  cases tl with
  | nil => simp at h
  | cons e1 rest =>
    dsimp only at h
    split at h
    · simp at h
    · rw [List.mem_filterMap] at h
      obtain ⟨e2, _, hf⟩ := h
      obtain ⟨ci0, heq, hrest⟩ := conflictOfPair_some hf
      exact ⟨e1, e2, ci0, heq, hrest⟩

/-- C3 (amended): for a pair whose four timestamps all parse, a conflict is
reported iff `start1 < end2` and `end1 > start2` (strict: touching boundaries
are never conflicts) AND the overlap interval
`[max(start1, start2), min(end1, end2)]` has positive length — the second
condition is implied by the first except for zero- or negative-length events,
where the code's positive-duration guard rejects the pair (see the
counterexample); the reported overlap is that interval, `overlap_minutes` is
its exact non-negative length in minutes, and the scan discards pairs whose
overlap is below `min_overlap_minutes`. -/
theorem C3_overlap_detection :
    (∀ (e1 e2 : EventDict) (a1 a2 : Bool) (s1 en1 s2 en2 : Int),
       normalizeDatetimeOpt e1.start = some s1 →
       normalizeDatetimeOpt e1.endTime = some en1 →
       normalizeDatetimeOpt e2.start = some s2 →
       normalizeDatetimeOpt e2.endTime = some en2 →
       ((analyzeEventOverlap e1 e2 a1 a2).isSome ↔
          (s1 < en2 ∧ en1 > s2 ∧ max s1 s2 < min en1 en2))
       ∧ ∀ ci, analyzeEventOverlap e1 e2 a1 a2 = some ci →
           ci.overlapStart = isoOfMinutes (max s1 s2) ∧
           ci.overlapEnd = isoOfMinutes (min en1 en2) ∧
           (ci.overlapMinutes : Int) = min en1 en2 - max s1 s2 ∧
           0 < min en1 en2 - max s1 s2)
    ∧ (∀ (events : List EventDict) (iad : Bool) (mo : Nat) (thr : String)
         (ci : ConflictInfo), ci ∈ conflictScan events iad mo thr →
           mo ≤ ci.overlapMinutes) := by
  constructor
  · intro e1 e2 a1 a2 s1 en1 s2 en2 h1 h2 h3 h4
    rw [overlap_characterize e1 e2 a1 a2 s1 en1 s2 en2 h1 h2 h3 h4]
    constructor
    · by_cases hov : s1 < en2 ∧ en1 > s2 <;>
        by_cases hpos : max s1 s2 < min en1 en2 <;>
          simp [hov, hpos]
    · intro ci h
      split at h
      · split at h
        · next hpos =>
          obtain rfl : _ = ci := Option.some.injEq _ _ ▸ h
          refine ⟨rfl, rfl, ?_, by omega⟩
          simp only []
          omega
        · exact absurd h (by simp)
      · exact absurd h (by simp)
  · intro events iad mo thr ci h
    obtain ⟨e1, e2, ci0, _, rfl, hmo⟩ := mem_conflictScan h
    exact hmo

theorem C3_witness :
    (analyzeEventOverlap (eventToDict evA feedC2) (eventToDict evB feedC2)
      false false).isSome = true :=
  ((C3_overlap_detection.1 (eventToDict evA feedC2) (eventToDict evB feedC2)
      false false 28401720 28401780 28401750 28401810
      (by decide) (by decide) (by decide) (by decide)).1).mpr (by decide)

/-- C3 counterexample: a zero-length event lying strictly inside another
event.  All four timestamps parse and the claimed strict-overlap condition
`start1 < end2 AND end1 > start2` holds, yet `_analyze_event_overlap` reports
no conflict (the positive-duration guard rejects the empty overlap interval),
and the full scan reports no conflict either — refuting the claimed "iff". -/
theorem C3_counterexample :
    normalizeDatetimeOpt zeroLenEvent.start = some 28401720
    ∧ normalizeDatetimeOpt zeroLenEvent.endTime = some 28401720
    ∧ normalizeDatetimeOpt wideEvent.start = some 28401660
    ∧ normalizeDatetimeOpt wideEvent.endTime = some 28401780
    ∧ ((28401720 : Int) < 28401780 ∧ (28401720 : Int) > 28401660)
    ∧ isAllDayEvent zeroLenEvent = false
    ∧ isAllDayEvent wideEvent = false
    ∧ analyzeEventOverlap zeroLenEvent wideEvent false false = none
    ∧ conflictScan [zeroLenEvent, wideEvent] false 0 "all" = [] := by
  decide

theorem isEmpty_map (f : α → β) (l : List α) : (l.map f).isEmpty = l.isEmpty := by
  cases l <;> rfl

theorem searchEvents_eq (st : ServiceState) (query : String)
    (hq : query ≠ "")
    (hnd : (st.feeds.map (fun g => g.id)).Nodup) :
    searchEvents st query none =
      sortByStartKey ((searchedFeeds st query).flatMap
        (searchFeedEvents (queryVariations query))) := by
  unfold searchEvents searchedFeeds
  rw [if_neg hq]
  dsimp only [truthyList]
  rw [isEmpty_map]
  cases he : (st.feeds.filter (feedNameMatchesBidir (queryVariations query))).isEmpty with
  | true => simp [he]
  | false =>
    simp only [he, Bool.false_eq_true, if_false]
    rw [filterMap_findFeed_map_id st hnd _ (fun f hf => (List.mem_filter.mp hf).1)]

/-- C5 (amended): with no explicit feed filter, when at least one feed's name
matches a query variant bidirectionally (variant inside name or name inside
variant), the search is restricted to exactly those feeds — events of other
feeds are not returned even when their text fields match (see the
counterexample); within the searched feeds an event is returned iff a variant
occurs in its summary, description or location, or a variant occurs in the
feed's name; with no name-matching feed, all feeds are searched with the same
per-event criterion. -/
theorem C5_search_scope (st : ServiceState) (query : String) (ev : EventDict)
    (hq : query ≠ "")
    (hnd : (st.feeds.map (fun g => g.id)).Nodup) :
    ev ∈ searchEvents st query none ↔
      ∃ f ∈ searchedFeeds st query, ∃ cal, f.calendar = some cal ∧
        ∃ c ∈ cal.components, c.compName = "VEVENT" ∧
          (textMatches (queryVariations query) c = true ∨
           feedNameMatchesFwd (queryVariations query) f = true) ∧
          ev = eventToDict c f := by
  rw [searchEvents_eq st query hq hnd, mem_sortByStartKey, List.mem_flatMap]
  constructor
  · rintro ⟨f, hf, hev⟩
    exact ⟨f, hf, mem_searchFeedEvents.mp hev⟩
  · rintro ⟨f, hf, hrest⟩
    exact ⟨f, hf, mem_searchFeedEvents.mpr hrest⟩

theorem C5_witness :
    eventToDict evStandup feedTeam ∈ searchEvents stC5 "team" none :=
  (C5_search_scope stC5 "team" (eventToDict evStandup feedTeam)
      (by decide) (by decide)).mpr
    ⟨feedTeam, by decide, { components := [evStandup] }, by decide, evStandup,
     by decide, by decide, Or.inr (by decide), by decide⟩

/-- C5 counterexample: the query "team" matches feed `team`'s name, so the
search is restricted to that feed; the event "team meeting" in feed `work`
satisfies the claim's text criterion yet is not returned — refuting the
claimed "returns exactly the events for which a variant matches the text
fields OR the feed name". -/
theorem C5_counterexample :
    searchEvents stC5 "team" none = [eventToDict evStandup feedTeam]
    ∧ textMatches (queryVariations "team") evTeamMeeting = true
    ∧ eventToDict evTeamMeeting feedWork ∉ searchEvents stC5 "team" none := by
  refine ⟨by decide, by decide, ?_⟩
  intro h
  rw [show searchEvents stC5 "team" none = [eventToDict evStandup feedTeam]
    from by decide] at h
  exact absurd h (by decide)

/-- C8: pagination is a pure slice of the fixed sorted result: with the same
state and window, `get_events(limit=L, offset=O)` equals `get_events()`
sliced to `[O : O+L]`, and an offset at or beyond the result length yields an
empty sequence, not an error. -/
theorem C8_pagination_is_slice (st : ServiceState) (now : Int)
    (sd ed : Option String) (fids : Option (List String)) (L O : Nat)
    (evs : List EventDict)
    (h : getEvents st now sd ed fids none 0 = .ok evs) :
    getEvents st now sd ed fids (some L) O = .ok ((evs.drop O).take L)
    ∧ (evs.length ≤ O → getEvents st now sd ed fids none O = .ok []) := by
  unfold getEvents at h ⊢
  cases hc : getEventsCore st now sd ed fids with
  | error e =>
    rw [hc] at h
    exact absurd h (by simp [Except.map])
  | ok core =>
    rw [hc] at h
    simp only [Except.map, paginate] at h
    obtain rfl : core = evs := by simpa using h
    constructor
    · simp [Except.map, paginate]
    · intro hlen
      simp only [Except.map, paginate, Except.ok.injEq]
      split
      · exact List.drop_eq_nil_of_le hlen
      · next hO =>
        have : O = 0 := by omega
        subst this
        exact List.eq_nil_of_length_eq_zero (by omega)

theorem C8_witness :
    getEvents stC2 t20240101 none none none (some 1) 1 =
      .ok (([eventToDict evA feedC2, eventToDict evB feedC2].drop 1).take 1) :=
  (C8_pagination_is_slice stC2 t20240101 none none none 1 1
    [eventToDict evA feedC2, eventToDict evB feedC2] (by decide)).1

/-- C9: every conflict record references two events whose four timestamps all
re-parse to UTC instants; a pair in which any of the four is absent or
unparsable is silently skipped — `_analyze_event_overlap` returns no conflict
and the scan produces no record — rather than raising or emitting a record
with missing overlap data. -/
theorem C9_unparsable_pairs_skipped :
    (∀ (e1 e2 : EventDict) (a1 a2 : Bool) (ci : ConflictInfo),
       analyzeEventOverlap e1 e2 a1 a2 = some ci →
         ci.event1.start = e1.start ∧ ci.event1.endTime = e1.endTime ∧
         ci.event2.start = e2.start ∧ ci.event2.endTime = e2.endTime ∧
         (normalizeDatetimeOpt e1.start).isSome ∧
         (normalizeDatetimeOpt e1.endTime).isSome ∧
         (normalizeDatetimeOpt e2.start).isSome ∧
         (normalizeDatetimeOpt e2.endTime).isSome)
    ∧ (∀ (e1 e2 : EventDict) (a1 a2 : Bool),
         (normalizeDatetimeOpt e1.start = none ∨
          normalizeDatetimeOpt e1.endTime = none ∨
          normalizeDatetimeOpt e2.start = none ∨
          normalizeDatetimeOpt e2.endTime = none) →
         analyzeEventOverlap e1 e2 a1 a2 = none)
    ∧ (∀ (events : List EventDict) (iad : Bool) (mo : Nat) (thr : String)
         (ci : ConflictInfo), ci ∈ conflictScan events iad mo thr →
           (normalizeDatetimeOpt ci.event1.start).isSome ∧
           (normalizeDatetimeOpt ci.event1.endTime).isSome ∧
           (normalizeDatetimeOpt ci.event2.start).isSome ∧
           (normalizeDatetimeOpt ci.event2.endTime).isSome) := by
  have main : ∀ (e1 e2 : EventDict) (a1 a2 : Bool) (ci : ConflictInfo),
      analyzeEventOverlap e1 e2 a1 a2 = some ci →
        ci.event1.start = e1.start ∧ ci.event1.endTime = e1.endTime ∧
        ci.event2.start = e2.start ∧ ci.event2.endTime = e2.endTime ∧
        (normalizeDatetimeOpt e1.start).isSome ∧
        (normalizeDatetimeOpt e1.endTime).isSome ∧
        (normalizeDatetimeOpt e2.start).isSome ∧
        (normalizeDatetimeOpt e2.endTime).isSome := by
    intro e1 e2 a1 a2 ci h
    obtain ⟨s1, en1, s2, en2, h1, h2, h3, h4⟩ := overlap_some_parse h
    rw [overlap_characterize e1 e2 a1 a2 s1 en1 s2 en2 h1 h2 h3 h4] at h
    split at h
    · split at h
      · obtain rfl : _ = ci := Option.some.injEq _ _ ▸ h
        exact ⟨rfl, rfl, rfl, rfl, by simp [h1], by simp [h2], by simp [h3],
          by simp [h4]⟩
      · exact absurd h (by simp)
    · exact absurd h (by simp)
  refine ⟨main, fun e1 e2 a1 a2 hd => overlap_none_of_unparsable e1 e2 a1 a2 hd, ?_⟩
  intro events iad mo thr ci h
  obtain ⟨e1, e2, ci0, heq, rfl, _⟩ := mem_conflictScan h
  obtain ⟨he1s, he1e, he2s, he2e, hp1, hp2, hp3, hp4⟩ := main e1 e2 _ _ ci0 heq
  exact ⟨by rw [show ({ci0 with severity := determineConflictSeverity ci0 e1 e2} :
            ConflictInfo).event1.start = ci0.event1.start from rfl, he1s]; exact hp1,
         by rw [show ({ci0 with severity := determineConflictSeverity ci0 e1 e2} :
            ConflictInfo).event1.endTime = ci0.event1.endTime from rfl, he1e]; exact hp2,
         by rw [show ({ci0 with severity := determineConflictSeverity ci0 e1 e2} :
            ConflictInfo).event2.start = ci0.event2.start from rfl, he2s]; exact hp3,
         by rw [show ({ci0 with severity := determineConflictSeverity ci0 e1 e2} :
            ConflictInfo).event2.endTime = ci0.event2.endTime from rfl, he2e]; exact hp4⟩

theorem C9_witness :
    analyzeEventOverlap badStartEvent wideEvent false false = none :=
  C9_unparsable_pairs_skipped.2.1 badStartEvent wideEvent false false
    (Or.inl (by decide))

end CalendarMcp
